import Mathlib

/-!
Verification of the russound_rio RIO client (src/russound_rio/rio.py).

The embedding models one raw protocol line as a `List Char`, the regex
`_re_response` as an executable matcher with the same greedy-backtracking
semantics, and the state of a `Russound` object (caches, watch sets,
callback registries) as an explicit structure threaded through the
translated methods.  Callbacks are modelled by opaque identifiers; a store
operation returns the list of callback invocation events it performs, in
order.
-/

set_option maxRecDepth 4096

/-- Characters of a string literal, the form used for wire text. -/
def strL (s : String) : List Char := s.data

/-- Python `str.isspace` on the ASCII whitespace used by `str.strip`. -/
def pyIsSpace (c : Char) : Bool :=
  c == ' ' || c == '\t' || c == '\n' || c == '\r' || c == '\x0b' || c == '\x0c'

/-- Python `str.strip`: drop whitespace at both ends. -/
def pyStrip (cs : List Char) : List Char :=
  ((cs.dropWhile pyIsSpace).reverse.dropWhile pyIsSpace).reverse

/-- Python `str.lower` on one character (ASCII range, as used by the protocol). -/
def pyToLower (c : Char) : Char :=
  if 'A' ≤ c ∧ c ≤ 'Z' then Char.ofNat (c.toNat + 32) else c

/-- Python `str.lower` on a whole variable name. -/
def pyLower (cs : List Char) : List Char := cs.map pyToLower

/-- Python `int` applied to a nonempty decimal digit string (regex group `\d+`). -/
def pyIntOfDigits (ds : List Char) : Int :=
  Int.ofNat (ds.foldl (fun a c => 10 * a + (c.toNat - '0'.toNat)) 0)

/-! ## The compiled regular expression `_re_response`

`(?:(?:S\[(?P<source>\d+)\])|(?:C\[(?P<controller>\d+)\].Z\[(?P<zone>\d+)\]))`
`\.(?P<variable>\S+)=\"(?P<value>.*)\"`, applied with `re.match` (anchored at
the start, the end left free).  `\S+` is greedy with backtracking; `.*` is
greedy, stops at a newline, and backtracks to the last quote. -/

/-- Which alternative of the leading group matched: `S[..]` or `C[..].Z[..]`. -/
inductive Addr where
  | src (id : List Char)
  | zn (controller zone : List Char)
deriving Repr, DecidableEq

/-- The group dictionary of a successful match of `_re_response`. -/
structure PayloadMatch where
  addr : Addr
  varName : List Char
  value : List Char
deriving Repr, DecidableEq

/-- `\d+` followed by the rest: the maximal digit run, none if it is empty. -/
def matchDigits (cs : List Char) : Option (List Char × List Char) :=
  let ds := cs.takeWhile Char.isDigit
  if ds.isEmpty then none else some (ds, cs.drop ds.length)

/-- The leading alternation `S\[\d+\]` or `C\[\d+\].Z\[\d+\]` (the dot in the
second branch is the regex metacharacter: any one character but a newline). -/
def matchAddr : List Char → Option (Addr × List Char)
  | 'S' :: '[' :: rest =>
    match matchDigits rest with
    | some (ds, ']' :: rest2) => some (.src ds, rest2)
    | _ => none
  | 'C' :: '[' :: rest =>
    match matchDigits rest with
    | some (cds, ']' :: d :: 'Z' :: '[' :: rest2) =>
      if d = '\n' then none
      else
        match matchDigits rest2 with
        | some (zds, ']' :: rest3) => some (.zn cds zds, rest3)
        | _ => none
    | _ => none
  | _ => none

/-- `(?P<value>.*)\"`: take the newline-free segment, backtrack to its last
quote; the value is everything before that quote. -/
def dotStarQuote (cs : List Char) : Option (List Char) :=
  let seg := cs.takeWhile (fun c => c != '\n')
  match seg.reverse.dropWhile (fun c => c != '"') with
  | '"' :: pre => some pre.reverse
  | _ => none

/-- `(?P<variable>\S+)=\"(?P<value>.*)\"` by greedy backtracking: try the
candidate variable of length `n`, then `n - 1`, down to `1`. -/
def tryVarSplit : Nat → List Char → Option (List Char × List Char)
  | 0, _ => none
  | Nat.succ n, cs =>
    match cs.drop (n + 1) with
    | '=' :: '"' :: rest =>
      match dotStarQuote rest with
      | some val => some (cs.take (n + 1), val)
      | none => tryVarSplit n cs
    | _ => tryVarSplit n cs

/-- `_re_response.match payload`: the whole pattern, anchored at the start. -/
def matchPayload (cs : List Char) : Option PayloadMatch :=
  match matchAddr cs with
  | some (addr, '.' :: rest) =>
    match tryVarSplit ((rest.takeWhile (fun c => !pyIsSpace c)).length) rest with
    | some (v, val) => some ⟨addr, v, val⟩
    | none => none
  | _ => none

/-! ## Data model of the `Russound` object -/

/-- `ZoneID` (rio.py): a zone index within a controller index, both `int`. -/
structure ZoneID where
  zone : Int
  controller : Int
deriving Repr, DecidableEq

/-- `ZoneID.__str__`: `"%d:%d" % (controller, zone)`. -/
def ZoneID.pyStr (z : ZoneID) : String :=
  toString z.controller ++ ":" ++ toString z.zone

/-- `ZoneID.__eq__` restricted to two `ZoneID` values (both have the
attributes the source tests with `hasattr`). -/
def ZoneID.eq (self other : ZoneID) : Bool :=
  other.zone == self.zone && other.controller == self.controller

/-- `ZoneID.device_str`: `"C[%d].Z[%d]" % (controller, zone)`. -/
def ZoneID.device_str (z : ZoneID) : List Char :=
  strL "C[" ++ (toString z.controller).data ++ strL "].Z[" ++
    (toString z.zone).data ++ strL "]"

/-- Key comparison of a Python `dict` with `int` keys. -/
def intEq (a b : Int) : Bool := a == b

/-- Key comparison of a Python `dict` with lower-cased string keys. -/
def nameEq (a b : List Char) : Bool := a == b

/-- First-match association-list lookup, the model of `d[k]`:
the stored key is compared to the query by `beq`. -/
def alistLookup {α β : Type} (beq : α → α → Bool) : List (α × β) → α → Option β
  | [], _ => none
  | (k, v) :: t, q => if beq k q then some v else alistLookup beq t q

/-- The model of `d[k] = v`: replace the value at the first equal key,
append at the end otherwise (Python dicts keep insertion order). -/
def alistSet {α β : Type} (beq : α → α → Bool) : List (α × β) → α → β → List (α × β)
  | [], k, v => [(k, v)]
  | (k0, v0) :: t, k, v =>
    if beq k0 k then (k0, v) :: t else (k0, v0) :: alistSet beq t k v

/-- A registered callback, identified opaquely. -/
abbrev Callback := Nat

/-- One synchronous callback invocation performed by a cache store. -/
inductive CbEvent where
  | zoneCb (cb : Callback) (zone_id : ZoneID) (name value : List Char)
  | sourceCb (cb : Callback) (source_id : Int) (name value : List Char)
deriving Repr, DecidableEq

/-- The mutable state of one `Russound` instance (rio.py `__init__`):
the two caches, the two watch sets and the two callback registries. -/
structure RState where
  source_state : List (Int × List (List Char × List Char))
  zone_state : List (ZoneID × List (List Char × List Char))
  watched_zones : List ZoneID
  watched_sources : List Int
  zone_callbacks : List Callback
  source_callbacks : List Callback
deriving Repr, DecidableEq

/-- `Russound._retrieve_cached_zone_variable`: `none` models the
`UncachedVariable` exception raised on a `KeyError` at either level. -/
def retrieve_cached_zone_variable (st : RState) (zone_id : ZoneID)
    (name : List Char) : Option (List Char) :=
  match alistLookup ZoneID.eq st.zone_state zone_id with
  | some tbl => alistLookup nameEq tbl (pyLower name)
  | none => none

/-- `Russound._store_cached_zone_variable`: `setdefault` then assignment
under the lower-cased name, then every zone callback in registration order.
Returns the new state and the callback invocations performed. -/
def store_cached_zone_variable (st : RState) (zone_id : ZoneID)
    (name value : List Char) : RState × List CbEvent :=
  let tbl := (alistLookup ZoneID.eq st.zone_state zone_id).getD []
  let nm := pyLower name
  ({ st with zone_state :=
      alistSet ZoneID.eq st.zone_state zone_id (alistSet nameEq tbl nm value) },
   st.zone_callbacks.map (fun cb => CbEvent.zoneCb cb zone_id nm value))

/-- `Russound._retrieve_cached_source_variable`. -/
def retrieve_cached_source_variable (st : RState) (source_id : Int)
    (name : List Char) : Option (List Char) :=
  match alistLookup intEq st.source_state source_id with
  | some tbl => alistLookup nameEq tbl (pyLower name)
  | none => none

/-- `Russound._store_cached_source_variable`. -/
def store_cached_source_variable (st : RState) (source_id : Int)
    (name value : List Char) : RState × List CbEvent :=
  let tbl := (alistLookup intEq st.source_state source_id).getD []
  let nm := pyLower name
  ({ st with source_state :=
      alistSet intEq st.source_state source_id (alistSet nameEq tbl nm value) },
   st.source_callbacks.map (fun cb => CbEvent.sourceCb cb source_id nm value))

/-- Outcome of `Russound._process_response` on one raw line:
a normal return `(ty, value)` with the state after any cache store and the
callback events fired; the raised `CommandException` carrying the payload;
or the unguarded `IndexError` of `s[0]` on an empty stripped line. -/
inductive ProcOut where
  | ok (ty : Char) (value : Option (List Char)) (st : RState) (evs : List CbEvent)
  | commandException (msg : List Char) (st : RState)
  | indexError (st : RState)
deriving Repr, DecidableEq

/-- `Russound._process_response` (rio.py lines 127-149). -/
def process_response (st : RState) (res : List Char) : ProcOut :=
  match pyStrip res with
  | [] => .indexError st
  | ty :: rest =>
    let payload := rest.drop 1
    if ty = 'E' then .commandException payload st
    else
      match matchPayload payload with
      | none => .ok ty none st []
      | some m =>
        match m.addr with
        | .src ds =>
          let r := store_cached_source_variable st (pyIntOfDigits ds) m.varName m.value
          .ok ty (some m.value) r.1 r.2
        | .zn cds zds =>
          let r := store_cached_zone_variable st
            (ZoneID.mk (pyIntOfDigits zds) (pyIntOfDigits cds)) m.varName m.value
          .ok ty (some m.value) r.1 r.2

/-! ## The event loop, one incoming line at a time -/

/-- Effect of one incoming line handled in the idle branch of `_ioloop`
(lines 165-172): `CommandException` is swallowed by the `pass`, any other
exception escapes the loop. -/
inductive IdleStep where
  | cont (st : RState) (evs : List CbEvent)
  | crashed (st : RState)
deriving Repr, DecidableEq

/-- The idle branch of `_ioloop`: a line arriving with no command in flight. -/
def ioloop_idle_line (st : RState) (line : List Char) : IdleStep :=
  match process_response st line with
  | .ok _ _ st1 evs => .cont st1 evs
  | .commandException _ st1 => .cont st1 []
  | .indexError st1 => .crashed st1

/-- Effect of one incoming line handled in the inner wait loop of `_ioloop`
(lines 183-194) while a command is in flight: `resolved` and `failed` break
out of the wait (the pending future is resolved), `keepWaiting` loops. -/
inductive AwaitStep where
  | resolved (value : Option (List Char)) (st : RState) (evs : List CbEvent)
  | failed (msg : List Char) (st : RState)
  | keepWaiting (st : RState) (evs : List CbEvent)
  | crashed (st : RState)
deriving Repr, DecidableEq

/-- The inner wait loop of `_ioloop` on one line: type `S` resolves the
pending future with the parsed value, `CommandException` fails it, any other
type keeps waiting after its cache update. -/
def ioloop_await_line (st : RState) (line : List Char) : AwaitStep :=
  match process_response st line with
  | .ok ty value st1 evs =>
    if ty = 'S' then .resolved value st1 evs else .keepWaiting st1 evs
  | .commandException msg st1 => .failed msg st1
  | .indexError st1 => .crashed st1

/-! ## Public session operations -/

/-- Result of a zone read operation: the value returned synchronously
(`none` when the caller is left awaiting the correlated command result),
the wire commands enqueued by `_send_cmd`, and the object state afterwards
(these methods perform no cache mutation). -/
structure ZoneRead where
  value : Option (List Char)
  sent : List (List Char)
  state : RState
deriving Repr, DecidableEq

/-- `Russound.get_zone_variable` (rio.py lines 273-283): answer from the
cache, or enqueue `GET <device_str>.<variable>` and await its result. -/
def get_zone_variable (st : RState) (zone_id : ZoneID) (varName : List Char) :
    ZoneRead :=
  match retrieve_cached_zone_variable st zone_id varName with
  | some v => ⟨some v, [], st⟩
  | none => ⟨none, [strL "GET " ++ zone_id.device_str ++ strL "." ++ varName], st⟩

/-- `Russound.get_cached_zone_variable` (rio.py lines 285-292): the cached
value, or the caller-supplied default on `UncachedVariable`. -/
def get_cached_zone_variable (st : RState) (zone_id : ZoneID)
    (varName deflt : List Char) : ZoneRead :=
  match retrieve_cached_zone_variable st zone_id varName with
  | some v => ⟨some v, [], st⟩
  | none => ⟨some deflt, [], st⟩

/-- Python `set.remove` on the watched-zones set: `none` models the
`KeyError` raised when no member compares equal. -/
def pySetRemoveZone (s : List ZoneID) (z : ZoneID) : Option (List ZoneID) :=
  if s.any (fun w => ZoneID.eq w z) then
    some (s.filter (fun w => !ZoneID.eq w z))
  else none

/-- Outcome of `Russound.unwatch_zone`: either the `KeyError` of
`set.remove` (raised before `_send_cmd`, so nothing reaches the wire), or
the updated watch set together with the single command enqueued after it. -/
inductive UnwatchOutcome where
  | keyError
  | sent (watched : List ZoneID) (wire : List Char)
deriving Repr, DecidableEq

/-- `Russound.unwatch_zone` (rio.py lines 305-310): the set removal happens
first; only then is `WATCH <device_str> OFF` enqueued. -/
def unwatch_zone (watched : List ZoneID) (zone_id : ZoneID) : UnwatchOutcome :=
  match pySetRemoveZone watched zone_id with
  | none => .keyError
  | some w2 => .sent w2 (strL "WATCH " ++ zone_id.device_str ++ strL " OFF")

/-- Instance attributes assigned by `Russound.__init__` (rio.py lines 56-71). -/
def russound_init_attrs : List String :=
  ["_loop", "_host", "_port", "_ioloop_future", "_cmd_queue", "_source_state",
   "_zone_state", "_watched_zones", "_watched_sources", "_zone_callbacks",
   "_source_callbacks"]

/-- The wire text `Russound.watch_source` enqueues (rio.py line 356). -/
def watch_source_wire (source_id : Int) : List Char :=
  strL "WATCH S[" ++ (toString source_id).data ++ strL "] ON"

/-- The attribute `Russound.watch_source` reads after its command resolves
(rio.py line 357): `self._watched_source.add(source_id)`. -/
def watch_source_attr : String := "_watched_source"

/-! ## Helper lemmas -/

theorem alistLookup_alistSet_self {α β : Type} (beq : α → α → Bool)
    (l : List (α × β)) (k : α) (v : β) (hk : beq k k = true) :
    alistLookup beq (alistSet beq l k v) k = some v := by
  induction l with
  | nil => simp [alistSet, alistLookup, hk]
  | cons p t ih =>
    obtain ⟨k0, v0⟩ := p
    by_cases h : beq k0 k = true
    · simp [alistSet, alistLookup, h]
    · simp only [Bool.not_eq_true] at h
      simp [alistSet, alistLookup, h, ih]

theorem zoneEq_refl (z : ZoneID) : ZoneID.eq z z = true := by
  simp [ZoneID.eq]

theorem intEq_refl (i : Int) : intEq i i = true := by
  simp [intEq]

theorem nameEq_refl (n : List Char) : nameEq n n = true := by
  simp [nameEq]

/-- Store then retrieve, source cache: any name with the same lower-casing
reads back the stored value. -/
theorem retrieve_store_source (st : RState) (sid : Int) (n1 n2 v : List Char)
    (h : pyLower n2 = pyLower n1) :
    retrieve_cached_source_variable
      (store_cached_source_variable st sid n1 v).1 sid n2 = some v := by
  unfold retrieve_cached_source_variable store_cached_source_variable
  simp only
  rw [alistLookup_alistSet_self intEq _ _ _ (intEq_refl sid), h]
  exact alistLookup_alistSet_self nameEq _ _ _ (nameEq_refl (pyLower n1))

/-- Store then retrieve, zone cache. -/
theorem retrieve_store_zone (st : RState) (zid : ZoneID) (n1 n2 v : List Char)
    (h : pyLower n2 = pyLower n1) :
    retrieve_cached_zone_variable
      (store_cached_zone_variable st zid n1 v).1 zid n2 = some v := by
  unfold retrieve_cached_zone_variable store_cached_zone_variable
  simp only
  rw [alistLookup_alistSet_self ZoneID.eq _ _ _ (zoneEq_refl zid), h]
  exact alistLookup_alistSet_self nameEq _ _ _ (nameEq_refl (pyLower n1))

theorem takeWhile_append_all (p : Char → Bool) (l r : List Char)
    (h : ∀ c ∈ l, p c = true) :
    (l ++ r).takeWhile p = l ++ r.takeWhile p := by
  induction l with
  | nil => simp
  | cons a t ih =>
    have ha : p a = true := h a (List.mem_cons_self a t)
    simp only [List.cons_append, List.takeWhile_cons, ha, if_true]
    rw [ih (fun c hc => h c (List.mem_cons_of_mem a hc))]

theorem dropWhile_all_eq_nil (p : Char → Bool) (l : List Char)
    (h : ∀ c ∈ l, p c = true) : l.dropWhile p = [] := by
  induction l with
  | nil => rfl
  | cons a t ih =>
    have ha : p a = true := h a (List.mem_cons_self a t)
    simp only [List.dropWhile_cons, ha, if_true]
    exact ih (fun c hc => h c (List.mem_cons_of_mem a hc))

/-- A string whose first and last characters are not whitespace is left
unchanged by `pyStrip`. -/
theorem pyStrip_eq_self (cs : List Char)
    (h1 : cs.dropWhile pyIsSpace = cs)
    (h2 : cs.reverse.dropWhile pyIsSpace = cs.reverse) :
    pyStrip cs = cs := by
  unfold pyStrip
  rw [h1, h2, List.reverse_reverse]

/-- All-whitespace input strips to the empty string. -/
theorem pyStrip_all_space (cs : List Char) (h : ∀ c ∈ cs, pyIsSpace c = true) :
    pyStrip cs = [] := by
  unfold pyStrip
  rw [dropWhile_all_eq_nil pyIsSpace cs h]
  rfl

/-! ## Correctness of the regex model on well-formed payloads -/

theorem matchDigits_append (ds r : List Char) (h1 : ds ≠ [])
    (h2 : ∀ c ∈ ds, c.isDigit = true) :
    matchDigits (ds ++ ']' :: r) = some (ds, ']' :: r) := by
  unfold matchDigits
  have ht : (ds ++ ']' :: r).takeWhile Char.isDigit = ds := by
    rw [takeWhile_append_all Char.isDigit ds (']' :: r) h2]
    simp [List.takeWhile_cons]
  rw [ht]
  simp [h1, List.drop_left]

theorem dotStarQuote_append (val : List Char)
    (hn : '\n' ∉ val) : dotStarQuote (val ++ ['"']) = some val := by
  unfold dotStarQuote
  have ht : (val ++ ['"']).takeWhile (fun c => c != '\n') = val ++ ['"'] := by
    apply List.takeWhile_eq_self_iff.mpr
    intro c hc
    rcases List.mem_append.mp hc with h | h
    · simp only [bne_iff_ne, ne_eq]
      exact fun he => hn (he ▸ h)
    · simp only [List.mem_singleton] at h
      subst h
      decide
  have hrev : (val ++ ['"']).reverse = '"' :: val.reverse := by simp
  simp only [ht, hrev, List.dropWhile_cons, bne_self_eq_false, if_false,
    Bool.false_eq_true, List.reverse_reverse]

/-- In `'"' :: val ++ ['"']` with no quote inside `val`, a suffix starting
with `'='` then `'"'` can only sit just before the final quote, so the rest
after the two characters is empty. -/
theorem drop_quote_tail (val : List Char) (hq : '"' ∉ val) :
    ∀ i r, (val ++ ['"']).drop i = '"' :: r → r = [] := by
  induction val with
  | nil =>
    intro i r h
    cases i with
    | zero =>
      simp only [List.nil_append, List.drop_zero] at h
      exact (List.cons_eq_cons.mp h).2.symm
    | succ n =>
      simp only [List.nil_append] at h
      rw [List.drop_succ_cons, List.drop_nil] at h
      exact absurd h (by simp)
  | cons a t ih =>
    intro i r h
    cases i with
    | zero =>
      simp only [List.cons_append, List.drop_zero] at h
      obtain ⟨ha, -⟩ := List.cons_eq_cons.mp h
      subst ha
      exact (hq (List.mem_cons_self _ _)).elim
    | succ n =>
      simp only [List.cons_append, List.drop_succ_cons] at h
      exact ih (fun hm => hq (List.mem_cons_of_mem a hm)) n r h

theorem drop_append_len {l r : List Char} (i : Nat) :
    (l ++ r).drop (l.length + i) = r.drop i := by
  rw [← List.drop_drop, List.drop_left]

theorem dotStarQuote_nil : dotStarQuote [] = none := rfl

/-- A candidate split whose tail starts `=\"` with a valid value succeeds. -/
theorem tryVarSplit_succ_of_ok (n : Nat) (cs r val : List Char)
    (heq : cs.drop (n + 1) = '=' :: '"' :: r) (hd : dotStarQuote r = some val) :
    tryVarSplit (n + 1) cs = some (cs.take (n + 1), val) := by
  simp only [tryVarSplit, heq, hd]

/-- A candidate split that cannot complete falls through to the next one. -/
theorem tryVarSplit_succ_of_fail (n : Nat) (cs : List Char)
    (h : ∀ r, cs.drop (n + 1) = '=' :: '"' :: r → dotStarQuote r = none) :
    tryVarSplit (n + 1) cs = tryVarSplit n cs := by
  simp only [tryVarSplit]
  split
  · next r heq =>
    rw [h r heq]
  · rfl

/-- Greedy backtracking on `var ++ =\"val\"` recovers exactly `(var, val)`
from any starting length of `var.length` or more, provided `val` contains
no quote and no newline: the only viable split is at `var.length`. -/
theorem tryVarSplit_append (var val : List Char) (hvar : var ≠ [])
    (hq : '"' ∉ val) (hn : '\n' ∉ val) (d : Nat) :
    tryVarSplit (var.length + d) (var ++ '=' :: '"' :: (val ++ ['"'])) =
      some (var, val) := by
  induction d with
  | zero =>
    obtain ⟨a, t, rfl⟩ := List.exists_cons_of_ne_nil hvar
    have hdrop : ((a :: t) ++ '=' :: '"' :: (val ++ ['"'])).drop (t.length + 1) =
        '=' :: '"' :: (val ++ ['"']) := by
      have h0 := List.drop_left (a :: t) ('=' :: '"' :: (val ++ ['"']))
      simp only [List.length_cons] at h0
      exact h0
    have htake : ((a :: t) ++ '=' :: '"' :: (val ++ ['"'])).take (t.length + 1) =
        a :: t := by
      have h0 := List.take_left (a :: t) ('=' :: '"' :: (val ++ ['"']))
      simp only [List.length_cons] at h0
      exact h0
    rw [Nat.add_zero, List.length_cons,
      tryVarSplit_succ_of_ok t.length _ _ val hdrop (dotStarQuote_append val hn),
      htake]
  | succ e ih =>
    have hdrop : (var ++ '=' :: '"' :: (val ++ ['"'])).drop (var.length + e + 1) =
        ('"' :: (val ++ ['"'])).drop e := by
      rw [Nat.add_assoc, drop_append_len]
      rfl
    rw [← Nat.add_assoc] at *
    rw [tryVarSplit_succ_of_fail (var.length + e) _ ?_]
    · exact ih
    · intro r hr
      rw [hdrop] at hr
      cases e with
      | zero =>
        exact absurd (List.cons_eq_cons.mp hr).1 (by decide)
      | succ f =>
        rw [List.drop_succ_cons] at hr
        have h2 : (val ++ ['"']).drop (f + 1) = '"' :: r := by
          rw [← List.drop_drop, hr]
          rfl
        rw [drop_quote_tail val hq (f + 1) r h2]
        exact dotStarQuote_nil

/-- The full pattern on a well-formed source payload
`S[<ds>].<var>="<val>"`. -/
theorem matchPayload_src (ds var val : List Char)
    (hds : ds ≠ []) (hdsd : ∀ c ∈ ds, c.isDigit = true)
    (hvar : var ≠ []) (hvarw : ∀ c ∈ var, pyIsSpace c = false)
    (hq : '"' ∉ val) (hn : '\n' ∉ val) :
    matchPayload
      ('S' :: '[' :: (ds ++ ']' :: '.' :: (var ++ '=' :: '"' :: (val ++ ['"'])))) =
      some ⟨Addr.src ds, var, val⟩ := by
  have haddr :
      matchAddr ('S' :: '[' ::
        (ds ++ ']' :: '.' :: (var ++ '=' :: '"' :: (val ++ ['"'])))) =
      some (Addr.src ds, '.' :: (var ++ '=' :: '"' :: (val ++ ['"']))) := by
    simp only [matchAddr,
      matchDigits_append ds ('.' :: (var ++ '=' :: '"' :: (val ++ ['"']))) hds hdsd]
  have htw :
      ((var ++ '=' :: '"' :: (val ++ ['"'])).takeWhile
        (fun c => !pyIsSpace c)).length =
      var.length +
        (('=' :: '"' :: (val ++ ['"'])).takeWhile (fun c => !pyIsSpace c)).length := by
    rw [takeWhile_append_all (fun c => !pyIsSpace c) var _
      (fun c hc => by simp only [hvarw c hc]; rfl)]
    exact List.length_append _ _
  simp only [matchPayload, haddr, htw,
    tryVarSplit_append var val hvar hq hn _]

/-- `pyStrip` on a line whose first and last characters are not whitespace. -/
theorem pyStrip_cons_append (c : Char) (mid : List Char) (a : Char)
    (hc : pyIsSpace c = false) (ha : pyIsSpace a = false) :
    pyStrip (c :: (mid ++ [a])) = c :: (mid ++ [a]) := by
  apply pyStrip_eq_self
  · rw [List.dropWhile_cons, hc]
    simp
  · have hrev : (c :: (mid ++ [a])).reverse = a :: (mid.reverse ++ [c]) := by
      simp
    rw [hrev, List.dropWhile_cons, ha]
    simp

/-! ## Claim theorems -/

/-- C1: processing a raw line `S S[<id>].<var>="<val>"` yields the source
update: the value is stored under the lower-cased variable name in that
source cache table (so a retrieve of the same name finds it), and every
registered source callback is invoked exactly once, in registration order,
with the id, the lower-cased name and the value.  The hypotheses pin down
"a line of that form": a nonempty digit id, a nonempty whitespace-free
variable name, and a value free of quotes and newlines. -/
theorem C1_source_line (st : RState) (ds var val : List Char)
    (hds : ds ≠ []) (hdsd : ∀ c ∈ ds, c.isDigit = true)
    (hvar : var ≠ []) (hvarw : ∀ c ∈ var, pyIsSpace c = false)
    (hq : '"' ∉ val) (hn : '\n' ∉ val) :
    ∃ st2,
      process_response st
        ('S' :: ' ' :: 'S' :: '[' ::
          (ds ++ ']' :: '.' :: (var ++ '=' :: '"' :: (val ++ ['"'])))) =
        ProcOut.ok 'S' (some val) st2
          (st.source_callbacks.map
            (fun cb => CbEvent.sourceCb cb (pyIntOfDigits ds) (pyLower var) val)) ∧
      retrieve_cached_source_variable st2 (pyIntOfDigits ds) var = some val := by
  have hmid :
      ('S' :: ' ' :: 'S' :: '[' ::
        (ds ++ ']' :: '.' :: (var ++ '=' :: '"' :: (val ++ ['"'])))) =
      'S' :: ((' ' :: 'S' :: '[' ::
        (ds ++ ']' :: '.' :: (var ++ '=' :: '"' :: val))) ++ ['"']) := by
    simp [List.append_assoc]
  have hstrip :
      pyStrip ('S' :: ' ' :: 'S' :: '[' ::
        (ds ++ ']' :: '.' :: (var ++ '=' :: '"' :: (val ++ ['"'])))) =
      'S' :: ' ' :: 'S' :: '[' ::
        (ds ++ ']' :: '.' :: (var ++ '=' :: '"' :: (val ++ ['"']))) := by
    rw [hmid]
    exact pyStrip_cons_append 'S' _ '"' (by decide) (by decide)
  have hm := matchPayload_src ds var val hds hdsd hvar hvarw hq hn
  refine ⟨(store_cached_source_variable st (pyIntOfDigits ds) var val).1, ?_, ?_⟩
  · unfold process_response
    rw [hstrip]
    dsimp only
    rw [if_neg (by decide : ¬('S' : Char) = 'E')]
    simp only [List.drop_one, List.tail_cons]
    rw [hm]
    rfl
  · exact retrieve_store_source st (pyIntOfDigits ds) var var val rfl

/-- C1 witness: the line `S S[3].name="Kitchen"` with two registered source
callbacks. -/
theorem C1_source_line_witness :
    ('"' ∉ strL "Kitchen") ∧
    ∃ st2,
      process_response ⟨[], [], [], [], [], [0, 1]⟩
        ('S' :: ' ' :: 'S' :: '[' ::
          (strL "3" ++ ']' :: '.' ::
            (strL "name" ++ '=' :: '"' :: (strL "Kitchen" ++ ['"'])))) =
        ProcOut.ok 'S' (some (strL "Kitchen"))
          st2
          ((⟨[], [], [], [], [], [0, 1]⟩ : RState).source_callbacks.map
            (fun cb => CbEvent.sourceCb cb (pyIntOfDigits (strL "3"))
              (pyLower (strL "name")) (strL "Kitchen"))) ∧
      retrieve_cached_source_variable st2 (pyIntOfDigits (strL "3"))
        (strL "name") = some (strL "Kitchen") :=
  ⟨by decide,
   C1_source_line ⟨[], [], [], [], [], [0, 1]⟩ (strL "3") (strL "name")
     (strL "Kitchen") (by decide) (by decide) (by decide) (by decide)
     (by decide) (by decide)⟩

/-- The cache of `st` holds the value of a parsed update `m` under the
addressed entity and the lower-cased variable name. -/
def matchCached (st : RState) (m : PayloadMatch) : Prop :=
  match m.addr with
  | .src ds =>
    retrieve_cached_source_variable st (pyIntOfDigits ds) m.varName = some m.value
  | .zn cds zds =>
    retrieve_cached_zone_variable st
      (ZoneID.mk (pyIntOfDigits zds) (pyIntOfDigits cds)) m.varName = some m.value

/-- C2: a non-error line whose payload parses as a variable update stores to
the cache of the addressed entity in both loop modes; while a command is
pending, a type code other than S and E leaves the command unresolved
(`keepWaiting`) with the same cache update applied, while type S both
updates the cache and resolves the pending command. -/
theorem C2_unconditional_cache_update (st : RState) (line : List Char)
    (ty : Char) (rest : List Char) (m : PayloadMatch)
    (hs : pyStrip line = ty :: rest) (hE : ty ≠ 'E')
    (hm : matchPayload (rest.drop 1) = some m) :
    ∃ st2 evs,
      ioloop_idle_line st line = IdleStep.cont st2 evs ∧
      (ty ≠ 'S' → ioloop_await_line st line = AwaitStep.keepWaiting st2 evs) ∧
      (ty = 'S' →
        ioloop_await_line st line = AwaitStep.resolved (some m.value) st2 evs) ∧
      matchCached st2 m := by
  obtain ⟨addr, vn, vl⟩ := m
  cases addr with
  | src ds =>
    have hpr : process_response st line =
        ProcOut.ok ty (some vl)
          (store_cached_source_variable st (pyIntOfDigits ds) vn vl).1
          (store_cached_source_variable st (pyIntOfDigits ds) vn vl).2 := by
      unfold process_response
      rw [hs]
      dsimp only
      rw [if_neg hE, hm]
    refine ⟨(store_cached_source_variable st (pyIntOfDigits ds) vn vl).1,
      (store_cached_source_variable st (pyIntOfDigits ds) vn vl).2,
      ?_, ?_, ?_, ?_⟩
    · unfold ioloop_idle_line
      rw [hpr]
    · intro hS
      unfold ioloop_await_line
      rw [hpr]
      dsimp only
      rw [if_neg hS]
    · intro hS
      unfold ioloop_await_line
      rw [hpr]
      dsimp only
      rw [if_pos hS]
    · exact retrieve_store_source st (pyIntOfDigits ds) vn vn vl rfl
  | zn cds zds =>
    have hpr : process_response st line =
        ProcOut.ok ty (some vl)
          (store_cached_zone_variable st
            (ZoneID.mk (pyIntOfDigits zds) (pyIntOfDigits cds)) vn vl).1
          (store_cached_zone_variable st
            (ZoneID.mk (pyIntOfDigits zds) (pyIntOfDigits cds)) vn vl).2 := by
      unfold process_response
      rw [hs]
      dsimp only
      rw [if_neg hE, hm]
    refine ⟨(store_cached_zone_variable st
        (ZoneID.mk (pyIntOfDigits zds) (pyIntOfDigits cds)) vn vl).1,
      (store_cached_zone_variable st
        (ZoneID.mk (pyIntOfDigits zds) (pyIntOfDigits cds)) vn vl).2,
      ?_, ?_, ?_, ?_⟩
    · unfold ioloop_idle_line
      rw [hpr]
    · intro hS
      unfold ioloop_await_line
      rw [hpr]
      dsimp only
      rw [if_neg hS]
    · intro hS
      unfold ioloop_await_line
      rw [hpr]
      dsimp only
      rw [if_pos hS]
    · exact retrieve_store_zone st _ vn vn vl rfl

/-- C2 witness: an unsolicited type-N push updates the cache and keeps the
pending command waiting. -/
theorem C2_unconditional_cache_update_witness :
    (('N' : Char) ≠ 'E') ∧
    ∃ st2 evs,
      ioloop_idle_line ⟨[], [], [], [], [], []⟩ (strL "N S[3].bass=\"1\"") =
        IdleStep.cont st2 evs ∧
      (('N' : Char) ≠ 'S' →
        ioloop_await_line ⟨[], [], [], [], [], []⟩ (strL "N S[3].bass=\"1\"") =
          AwaitStep.keepWaiting st2 evs) ∧
      (('N' : Char) = 'S' →
        ioloop_await_line ⟨[], [], [], [], [], []⟩ (strL "N S[3].bass=\"1\"") =
          AwaitStep.resolved (some (strL "1")) st2 evs) ∧
      matchCached st2 ⟨Addr.src (strL "3"), strL "bass", strL "1"⟩ :=
  ⟨by decide,
   C2_unconditional_cache_update ⟨[], [], [], [], [], []⟩
     (strL "N S[3].bass=\"1\"") 'N' (strL " S[3].bass=\"1\"")
     ⟨Addr.src (strL "3"), strL "bass", strL "1"⟩
     (by decide) (by decide) (by decide)⟩

/-- C3: a type-E line raises `CommandException` carrying the whole payload
before any cache store; while a command is pending the pending future is
failed with that message (`failed`, a terminal step after which the outer
loop dequeues the next command), and while idle the exception is swallowed
and the state is unchanged. -/
theorem C3_error_line (st : RState) (line : List Char) (ty : Char)
    (rest : List Char) (hs : pyStrip line = ty :: rest) (hty : ty = 'E') :
    process_response st line = ProcOut.commandException (rest.drop 1) st ∧
    ioloop_await_line st line = AwaitStep.failed (rest.drop 1) st ∧
    ioloop_idle_line st line = IdleStep.cont st [] := by
  subst hty
  have hpr : process_response st line =
      ProcOut.commandException (rest.drop 1) st := by
    unfold process_response
    rw [hs]
    dsimp only
    rw [if_pos rfl]
  refine ⟨hpr, ?_, ?_⟩
  · unfold ioloop_await_line
    rw [hpr]
  · unfold ioloop_idle_line
    rw [hpr]

/-- C3 witness: the line `E bad syntax` fails the pending command with the
message `bad syntax` and is dropped while idle. -/
theorem C3_error_line_witness :
    process_response ⟨[], [], [], [], [], []⟩ (strL "E bad syntax") =
      ProcOut.commandException (strL "bad syntax") ⟨[], [], [], [], [], []⟩ ∧
    ioloop_await_line ⟨[], [], [], [], [], []⟩ (strL "E bad syntax") =
      AwaitStep.failed (strL "bad syntax") ⟨[], [], [], [], [], []⟩ ∧
    ioloop_idle_line ⟨[], [], [], [], [], []⟩ (strL "E bad syntax") =
      IdleStep.cont ⟨[], [], [], [], [], []⟩ [] :=
  C3_error_line ⟨[], [], [], [], [], []⟩ (strL "E bad syntax") 'E'
    (strL " bad syntax") (by decide) rfl

/-- C9: a raw line that is empty or all whitespace strips to the empty
string, and `s[0]` is evaluated without a guard: the embedding returns the
`indexError` case rather than any normal result. -/
theorem C9_empty_line_index_error (st : RState) (res : List Char)
    (h : ∀ c ∈ res, pyIsSpace c = true) :
    process_response st res = ProcOut.indexError st := by
  unfold process_response
  rw [pyStrip_all_space res h]

/-- C9 witness: a bare terminator line. -/
theorem C9_empty_line_index_error_witness :
    process_response ⟨[], [], [], [], [], []⟩ (strL "  \r\n") =
      ProcOut.indexError ⟨[], [], [], [], [], []⟩ :=
  C9_empty_line_index_error ⟨[], [], [], [], [], []⟩ (strL "  \r\n") (by decide)

/-- C4: `get_zone_variable` answers a cache hit synchronously with no
command enqueued and no state change; on a miss it enqueues exactly
`GET <device_str>.<variable>` (with `device_str = C[<controller>].Z[<zone>]`
by definition) and leaves the caller awaiting the correlated result. -/
theorem C4_get_zone_variable (st : RState) (zone_id : ZoneID) (vn : List Char) :
    (∀ v, retrieve_cached_zone_variable st zone_id vn = some v →
      get_zone_variable st zone_id vn = ⟨some v, [], st⟩) ∧
    (retrieve_cached_zone_variable st zone_id vn = none →
      get_zone_variable st zone_id vn =
        ⟨none, [strL "GET " ++ zone_id.device_str ++ strL "." ++ vn], st⟩) := by
  constructor
  · intro v hv
    unfold get_zone_variable
    rw [hv]
  · intro hv
    unfold get_zone_variable
    rw [hv]

/-- C4 witness: a hit on `Volume` (stored lower-cased) reads the cache with
nothing sent; a miss on `bass` sends exactly one GET command. -/
theorem C4_get_zone_variable_witness :
    get_zone_variable
      ⟨[], [(⟨5, 2⟩, [(strL "volume", strL "10")])], [], [], [], []⟩
      ⟨5, 2⟩ (strL "Volume") =
      ⟨some (strL "10"), [],
       ⟨[], [(⟨5, 2⟩, [(strL "volume", strL "10")])], [], [], [], []⟩⟩ ∧
    get_zone_variable
      ⟨[], [(⟨5, 2⟩, [(strL "volume", strL "10")])], [], [], [], []⟩
      ⟨5, 2⟩ (strL "bass") =
      ⟨none,
       [strL "GET " ++ (⟨5, 2⟩ : ZoneID).device_str ++ strL "." ++ strL "bass"],
       ⟨[], [(⟨5, 2⟩, [(strL "volume", strL "10")])], [], [], [], []⟩⟩ :=
  ⟨(C4_get_zone_variable _ ⟨5, 2⟩ (strL "Volume")).1 (strL "10") (by decide),
   (C4_get_zone_variable _ ⟨5, 2⟩ (strL "bass")).2 (by decide)⟩

/-- C5: `get_cached_zone_variable` returns the caller-supplied default on a
cache miss and the cached value on a hit; in both cases nothing is sent to
the socket and the state is unchanged. -/
theorem C5_get_cached_zone_variable (st : RState) (zone_id : ZoneID)
    (vn de : List Char) :
    (retrieve_cached_zone_variable st zone_id vn = none →
      get_cached_zone_variable st zone_id vn de = ⟨some de, [], st⟩) ∧
    (∀ v, retrieve_cached_zone_variable st zone_id vn = some v →
      get_cached_zone_variable st zone_id vn de = ⟨some v, [], st⟩) := by
  constructor
  · intro hv
    unfold get_cached_zone_variable
    rw [hv]
  · intro v hv
    unfold get_cached_zone_variable
    rw [hv]

/-- C5 witness: an uncached `volume` with default `0` returns `0` with
nothing sent and the cache untouched. -/
theorem C5_get_cached_zone_variable_witness :
    get_cached_zone_variable ⟨[], [], [], [], [], []⟩ ⟨1, 1⟩
      (strL "volume") (strL "0") =
      ⟨some (strL "0"), [], ⟨[], [], [], [], [], []⟩⟩ :=
  (C5_get_cached_zone_variable ⟨[], [], [], [], [], []⟩ ⟨1, 1⟩
    (strL "volume") (strL "0")).1 (by decide)

/-- C7: `ZoneID.__eq__` is structural equality of the
`(controller, zone)` pair; equal values render to the same `__str__` text,
so any hash computed from it (Python hashes `str(self)`) agrees, and equal
values address the same zone cache entries. -/
theorem C7_zoneid_equality (a b : ZoneID) :
    (ZoneID.eq a b = true ↔ a.controller = b.controller ∧ a.zone = b.zone) ∧
    (ZoneID.eq a b = true → a.pyStr = b.pyStr) ∧
    (∀ h : String → Int, ZoneID.eq a b = true → h a.pyStr = h b.pyStr) ∧
    (ZoneID.eq a b = true → ∀ st n,
      retrieve_cached_zone_variable st a n = retrieve_cached_zone_variable st b n) := by
  have hab : ZoneID.eq a b = true ↔
      a.controller = b.controller ∧ a.zone = b.zone := by
    constructor
    · intro h
      simp only [ZoneID.eq, Bool.and_eq_true, beq_iff_eq] at h
      exact ⟨h.2.symm, h.1.symm⟩
    · intro h
      simp only [ZoneID.eq, Bool.and_eq_true, beq_iff_eq]
      exact ⟨h.2.symm, h.1.symm⟩
  have heq : ZoneID.eq a b = true → a = b := by
    intro h
    obtain ⟨h1, h2⟩ := hab.mp h
    cases a
    cases b
    simp_all
  exact ⟨hab, fun h => by rw [heq h], fun f h => by rw [heq h],
    fun h st n => by rw [heq h]⟩

/-- C7 witness: two separately constructed `ZoneID 5 2` values compare
equal, and a concrete hash of their string forms agrees. -/
theorem C7_zoneid_equality_witness :
    ZoneID.eq ⟨5, 2⟩ ⟨5, 2⟩ = true ∧
    (fun s : String => (s.length : Int)) (ZoneID.pyStr ⟨5, 2⟩) =
      (fun s : String => (s.length : Int)) (ZoneID.pyStr ⟨5, 2⟩) :=
  ⟨(C7_zoneid_equality ⟨5, 2⟩ ⟨5, 2⟩).1.mpr ⟨rfl, rfl⟩,
   (C7_zoneid_equality ⟨5, 2⟩ ⟨5, 2⟩).2.2.1 (fun s => (s.length : Int))
     (by decide)⟩

/-- C8: storing a zone variable under any case variant of a name and
reading it back under any other case variant returns the stored value, and
a second store of the same (lower-cased) key replaces the prior value. -/
theorem C8_case_insensitive_keys (st : RState) (zone_id : ZoneID)
    (n0 n1 n2 v0 v : List Char)
    (h12 : pyLower n2 = pyLower n1) (_h01 : pyLower n0 = pyLower n1) :
    retrieve_cached_zone_variable
      (store_cached_zone_variable st zone_id n1 v).1 zone_id n2 = some v ∧
    retrieve_cached_zone_variable
      (store_cached_zone_variable
        (store_cached_zone_variable st zone_id n0 v0).1 zone_id n1 v).1
      zone_id n2 = some v :=
  ⟨retrieve_store_zone st zone_id n1 n2 v h12,
   retrieve_store_zone _ zone_id n1 n2 v h12⟩

/-- C8 witness: store `Name`, read `name`; store `NAME` then `Name`
replaces the prior value. -/
theorem C8_case_insensitive_keys_witness :
    retrieve_cached_zone_variable
      (store_cached_zone_variable ⟨[], [], [], [], [], []⟩ ⟨5, 2⟩
        (strL "Name") (strL "Kitchen")).1 ⟨5, 2⟩ (strL "name") =
      some (strL "Kitchen") ∧
    retrieve_cached_zone_variable
      (store_cached_zone_variable
        (store_cached_zone_variable ⟨[], [], [], [], [], []⟩ ⟨5, 2⟩
          (strL "NAME") (strL "Old")).1 ⟨5, 2⟩
        (strL "Name") (strL "Kitchen")).1 ⟨5, 2⟩ (strL "name") =
      some (strL "Kitchen") :=
  C8_case_insensitive_keys ⟨[], [], [], [], [], []⟩ ⟨5, 2⟩
    (strL "NAME") (strL "Name") (strL "name") (strL "Old") (strL "Kitchen")
    (by decide) (by decide)

/-- C10: `unwatch_zone` removes the zone from the watched set before
anything is enqueued: a zone not in the set raises `KeyError` and nothing
reaches the wire, while a watched zone is removed and only then is
`WATCH <device_str> OFF` enqueued (so the removal stands even if that
command later fails). -/
theorem C10_unwatch_zone (watched : List ZoneID) (zone_id : ZoneID) :
    (watched.any (fun w => ZoneID.eq w zone_id) = false →
      unwatch_zone watched zone_id = UnwatchOutcome.keyError) ∧
    (watched.any (fun w => ZoneID.eq w zone_id) = true →
      unwatch_zone watched zone_id =
        UnwatchOutcome.sent (watched.filter (fun w => !ZoneID.eq w zone_id))
          (strL "WATCH " ++ zone_id.device_str ++ strL " OFF")) := by
  constructor
  · intro h
    simp [unwatch_zone, pySetRemoveZone, h]
  · intro h
    simp [unwatch_zone, pySetRemoveZone, h]

/-- C10 witness: removing an unwatched zone raises `KeyError` with nothing
sent; removing a watched zone updates the set and sends WATCH OFF. -/
theorem C10_unwatch_zone_witness :
    unwatch_zone [⟨5, 2⟩] ⟨1, 1⟩ = UnwatchOutcome.keyError ∧
    unwatch_zone [⟨5, 2⟩] ⟨5, 2⟩ =
      UnwatchOutcome.sent (([⟨5, 2⟩] : List ZoneID).filter
          (fun w => !ZoneID.eq w ⟨5, 2⟩))
        (strL "WATCH " ++ (⟨5, 2⟩ : ZoneID).device_str ++ strL " OFF") :=
  ⟨(C10_unwatch_zone [⟨5, 2⟩] ⟨1, 1⟩).1 (by decide),
   (C10_unwatch_zone [⟨5, 2⟩] ⟨5, 2⟩).2 (by decide)⟩

/-- C6: `watch_source` enqueues `WATCH S[<id>] ON`, but after the command
resolves it updates `self._watched_source`, an attribute that `__init__`
never creates (it creates `_watched_sources`): the attribute access raises
`AttributeError`, so the id is never added to the watched-sources set and
the result is never returned.  The claim describes the intended behaviour;
the code contradicts its own `__init__`. -/
theorem C6_watch_source_attr_missing :
    watch_source_attr ∉ russound_init_attrs ∧
    watch_source_wire 3 = strL "WATCH S[3] ON" := by
  constructor
  · decide
  · rfl
